import Mathlib

/-!
Shallow embedding of the patient CRUD application in
src/4_Post_Put_Delete/main.py.

Modelling conventions:
- JSON numbers (Python int/float) are modelled as rationals; float
  representation error is not modelled.  Python round(x, 2) is modelled as
  rounding x * 100 to the nearest integer with ties to even (the
  documented CPython rounding behaviour), divided by 100.
- A JSON object / Python dict is an association list that preserves
  insertion order; assignment to an existing key updates the value in
  place, assignment to a fresh key appends at the end (CPython dict
  semantics).
- Each HTTP endpoint is a pure function of the persisted file contents
  (the patients.json collection); a mutating endpoint returns the
  response together with the file contents after the request, and on an
  error path returns the file unchanged (save_data runs only on the
  success path).
- the Python sorted builtin is a stable sort; it is modelled by an insertion sort,
  which computes the same (unique) stable reordering.
-/

namespace PatientAPI

attribute [local semireducible] Rat.mul Rat.inv Rat.add Rat.sub

/-- JSON-like values as stored in the patients file. -/
inductive JValue where
  | str (s : String)
  | num (q : ℚ)
deriving DecidableEq, Repr

/-- A stored patient object: a JSON object, i.e. an ordered association
list of key/value pairs. -/
abbrev Record := List (String × JValue)

/-- The persisted collection: patient id to stored object, in insertion
order. -/
abbrev Collection := List (String × Record)

/-- Dict read: value at the first occurrence of the key. -/
def getVal : Record → String → Option JValue
  | [], _ => none
  | (k1, v1) :: r, k => if k1 = k then some v1 else getVal r k

/-- Dict write: update the first occurrence in place, else append. -/
def setVal : Record → String → JValue → Record
  | [], k, v => [(k, v)]
  | (k1, v1) :: r, k, v => if k1 = k then (k, v) :: r else (k1, v1) :: setVal r k v

/-- Collection read (`data[pid]` lookup / `pid in data`). -/
def getRec : Collection → String → Option Record
  | [], _ => none
  | (k1, v1) :: r, k => if k1 = k then some v1 else getRec r k

/-- Collection write (`data[pid] = rec`). -/
def setRec : Collection → String → Record → Collection
  | [], k, v => [(k, v)]
  | (k1, v1) :: r, k, v => if k1 = k then (k, v) :: r else (k1, v1) :: setRec r k v

/-- Collection delete (`del data[pid]`, first occurrence). -/
def delRec : Collection → String → Collection
  | [], _ => []
  | (k1, v1) :: r, k => if k1 = k then r else (k1, v1) :: delRec r k

/-- The gender Literal of the Patient model. -/
def genders : List String := ["male", "female", "others"]

/-- The Patient pydantic model: raw (non-computed) fields. -/
structure Patient where
  id : String
  name : String
  city : String
  age : ℤ
  gender : String
  height : ℚ
  weight : ℚ
deriving DecidableEq, Repr

/-- The Field constraints of the Patient model: age gt=0 lt=120, gender a
Literal, height gt=0, weight gt=0.  id, name and city are plain str
fields with no further constraint. -/
def Patient.validB (p : Patient) : Bool :=
  decide (0 < p.age) && decide (p.age < 120) && genders.contains p.gender &&
    decide (0 < p.height) && decide (0 < p.weight)

/-- Floor of a rational, computed by floor division of numerator by
denominator (kernel-reducible, unlike the FloorRing instance). -/
def ratFloor (q : ℚ) : ℤ := q.num.fdiv q.den

/-- Round to the nearest integer, ties to even (Python round on a
rational value). -/
def roundHalfEven (q : ℚ) : ℤ :=
  let n := ratFloor q
  let r := q - n
  if r < 1/2 then n
  else if 1/2 < r then n + 1
  else if n % 2 = 0 then n else n + 1

/-- Python round(x, 2). -/
def round2 (q : ℚ) : ℚ := (roundHalfEven (q * 100) : ℚ) / 100

/-- Computed field bmi: round(weight / height ** 2, 2). -/
def Patient.bmi (p : Patient) : ℚ := round2 (p.weight / p.height ^ 2)

/-- Computed field verdict: the if/elif chain on bmi. -/
def Patient.verdict (p : Patient) : String :=
  if p.bmi < 37/2 then "Underweight"
  else if p.bmi < 30 then "Normal"
  else "Obese"

/-- patient.model_dump excluding id: pydantic v2 serialises computed
fields too, so the dump carries bmi and verdict after the six raw
fields. -/
def Patient.dump (p : Patient) : Record :=
  [("name", .str p.name), ("city", .str p.city), ("age", .num (p.age : ℚ)),
   ("gender", .str p.gender), ("height", .num p.height), ("weight", .num p.weight),
   ("bmi", .num p.bmi), ("verdict", .str p.verdict)]

/-- The PatientUpdate pydantic model: every field optional, default None;
an unset field is none. -/
structure PatientUpdate where
  name : Option String := none
  city : Option String := none
  age : Option ℤ := none
  gender : Option String := none
  height : Option ℚ := none
  weight : Option ℚ := none
deriving DecidableEq, Repr

/-- The Field constraints of PatientUpdate: age gt=0 (no upper bound in
the source), gender a Literal, height gt=0, weight gt=0; name and city
unconstrained. -/
def PatientUpdate.validB (u : PatientUpdate) : Bool :=
  (match u.age with | none => true | some a => decide (0 < a)) &&
  (match u.gender with | none => true | some g => genders.contains g) &&
  (match u.height with | none => true | some x => decide (0 < x)) &&
  (match u.weight with | none => true | some x => decide (0 < x))

/-- patient_update.model_dump(exclude_unset=True): the set fields, in
model declaration order. -/
def PatientUpdate.dumpSet (u : PatientUpdate) : Record :=
  (match u.name with | some v => [("name", JValue.str v)] | none => []) ++
  (match u.city with | some v => [("city", JValue.str v)] | none => []) ++
  (match u.age with | some v => [("age", JValue.num (v : ℚ))] | none => []) ++
  (match u.gender with | some v => [("gender", JValue.str v)] | none => []) ++
  (match u.height with | some v => [("height", JValue.num v)] | none => []) ++
  (match u.weight with | some v => [("weight", JValue.num v)] | none => [])

/-- An HTTPException: status code and detail message. -/
structure HErr where
  status : ℕ
  detail : String
deriving DecidableEq, Repr

/-- The outcome of a request: an HTTPException or a value (an Except
clone with decidable equality). -/
inductive Resp (ε α : Type) where
  | error (e : ε)
  | ok (a : α)
deriving DecidableEq, Repr

/-- GET /patient/{patient_id}: load the data, 404 if the id is absent,
else return the stored object as is. -/
def view_patient (file : Collection) (pid : String) : Resp HErr Record :=
  match getRec file pid with
  | none => .error ⟨404, "Patient not found"⟩
  | some r => .ok r

/-- POST /create: 400 if the id already exists (no save), else store
patient.model_dump excluding id under the id and save.  The second
component is the persisted file after the request. -/
def create_patient (file : Collection) (p : Patient) : Resp HErr String × Collection :=
  if (getRec file p.id).isSome then
    (.error ⟨400, "Patient already exists"⟩, file)
  else
    (.ok "Patient created successfully", setRec file p.id p.dump)

/-- Apply the set fields of the patch onto the stored object, one dict
assignment per field (the for loop over updated_fields.items()). -/
def applyUpdates (r : Record) (u : PatientUpdate) : Record :=
  u.dumpSet.foldl (fun acc kv => setVal acc kv.1 kv.2) r

/-- Coercions performed by pydantic when rebuilding a Patient from the
stored dict.  A JSON number with no fractional part is accepted for an
int field; further lax string coercions of pydantic are not modelled
(the stored records written by this app are exactly typed). -/
def asStr : Option JValue → Option String
  | some (.str s) => some s
  | _ => none

def asInt : Option JValue → Option ℤ
  | some (.num q) => if q.den = 1 then some q.num else none
  | _ => none

def asRat : Option JValue → Option ℚ
  | some (.num q) => some q
  | _ => none

/-- Patient(**info): pydantic validation of a kwargs dict.  Keys that are
not model fields (the stored bmi and verdict) are ignored, the default
extra behaviour.  A missing or ill-typed required field, or a violated
Field constraint, raises ValidationError, modelled as none. -/
def parsePatient (info : Record) : Option Patient :=
  match asStr (getVal info "id"), asStr (getVal info "name"), asStr (getVal info "city"),
        asInt (getVal info "age"), asStr (getVal info "gender"),
        asRat (getVal info "height"), asRat (getVal info "weight") with
  | some i, some n, some c, some a, some g, some h, some w =>
      let p : Patient := ⟨i, n, c, a, g, h, w⟩
      if p.validB then some p else none
  | _, _, _, _, _, _, _ => none

/-- The Patient object rebuilt by PUT /edit/{patient_id}, when the id
exists and the merged dict validates. -/
def updateParsed (file : Collection) (pid : String) (u : PatientUpdate) : Option Patient :=
  match getRec file pid with
  | none => none
  | some existing => parsePatient (setVal (applyUpdates existing u) "id" (.str pid))

/-- PUT /edit/{patient_id}: fetch the stored object (404 if absent),
overwrite the set patch fields, set id, rebuild a Patient (recomputing
bmi and verdict), store its dump under the id and save.  A pydantic
ValidationError while rebuilding escapes the handler; it is modelled as
a 500 with the file unchanged. -/
def update_patient (file : Collection) (pid : String) (u : PatientUpdate) :
    Resp HErr String × Collection :=
  match view_patient file pid with
  | .error e => (.error e, file)
  | .ok existing =>
    match parsePatient (setVal (applyUpdates existing u) "id" (.str pid)) with
    | none => (.error ⟨500, "Internal Server Error"⟩, file)
    | some pobj => (.ok "Patient updated successfully", setRec file pid pobj.dump)

/-- DELETE /delete/{patient_id}: 404 if absent (no save), else remove the
key and save. -/
def delete_patient (file : Collection) (pid : String) : Resp HErr String × Collection :=
  if (getRec file pid).isSome then
    (.ok "Patient deleted successfully", delRec file pid)
  else
    (.error ⟨404, "Patient not found"⟩, file)

/-- x.get(sort_by, 0): the sort key of a stored object; a missing key is
the documented default 0.  A present non-numeric value is outside this
model (the Python sorted builtin would raise TypeError on a mixed comparison);
sort_patients reports it instead of sorting. -/
def sortKey (field : String) (r : Record) : Option ℚ :=
  match getVal r field with
  | none => some 0
  | some (.num q) => some q
  | some (.str _) => none

/-- Stable insertion into a sorted list: the new element goes before the
first element it compares le to, hence after all earlier equals. -/
def insertSorted (le : Record → Record → Bool) (a : Record) : List Record → List Record
  | [] => [a]
  | b :: l => if le a b then a :: b :: l else b :: insertSorted le a l

/-- Stable sort by repeated insertion, processing from the right, so an
earlier element is inserted before later equal elements: the unique
stable reordering, as produced by the Python sorted builtin. -/
def stableSort (le : Record → Record → Bool) : List Record → List Record
  | [] => []
  | a :: l => insertSorted le a (stableSort le l)

/-- The valid sort fields of GET /sort. -/
def validFields : List String := ["height", "weight", "bmi"]

/-- The comparison used by sorted(...) with key x.get(sort_by, 0) and
reverse true exactly when sort_order is desc. -/
def sortLe (field : String) (descending : Bool) (a b : Record) : Bool :=
  let ka := (sortKey field a).getD 0
  let kb := (sortKey field b).getD 0
  if descending then decide (kb ≤ ka) else decide (ka ≤ kb)

/-- GET /sort: 400 on an invalid field or order, else the stored objects
of the collection, stably sorted by the field. -/
def sort_patients (file : Collection) (sort_by sort_order : String) :
    Resp HErr (List Record) :=
  if ¬ validFields.contains sort_by then
    .error ⟨400, "Invalid field. Choose from height, weight, bmi"⟩
  else if ¬ (sort_order = "asc" ∨ sort_order = "desc") then
    .error ⟨400, "Sort order must be asc or desc"⟩
  else
    let vals := file.map Prod.snd
    if vals.all (fun r => (sortKey sort_by r).isSome) then
      .ok (stableSort (sortLe sort_by (sort_order = "desc")) vals)
    else
      .error ⟨500, "TypeError"⟩

/-- The shape of every stored object this app writes: the six raw fields
then bmi and verdict (the stored bmi and verdict values are arbitrary
here, since a reload never reads them back into the model). -/
def storedShape (n c : String) (a : ℤ) (g : String) (h w : ℚ) (b v : JValue) : Record :=
  [("name", .str n), ("city", .str c), ("age", .num (a : ℚ)), ("gender", .str g),
   ("height", .num h), ("weight", .num w), ("bmi", b), ("verdict", v)]

/-- Example patient whose bmi is exactly 30. -/
def patBmi30 : Patient := ⟨"P1", "Arya", "Pune", 30, "male", 1, 30⟩

/-- Example patient whose bmi is exactly 18.5. -/
def patBmi185 : Patient := ⟨"P2", "Bela", "Pune", 30, "female", 1, 37/2⟩

/-- Example patient, 1.75 m and 57 kg, bmi 18.61. -/
def patDemo : Patient := ⟨"P3", "Cleo", "Pune", 40, "female", 175/100, 57⟩

/-- Example patient with an empty name. -/
def patEmptyName : Patient := ⟨"P9", "", "Pune", 30, "male", 1, 30⟩

/-- Example patient with a 51-character name. -/
def patLongName : Patient := ⟨"P8", "aaaaaaaaaaaaaaaaaaaaaaaaaaaaaaaaaaaaaaaaaaaaaaaaaaa", "Pune", 30, "male", 1, 30⟩

/-- The collection after creating patBmi30 in an empty store. -/
def fileOne : Collection := (create_patient [] patBmi30).2

/-- A stored object whose persisted bmi (99) disagrees with its stored
height (1) and weight (30), as hand-edited storage can contain. -/
def staleRec : Record :=
  [("name", .str "Zed"), ("city", .str "Pune"), ("age", .num 30), ("gender", .str "male"),
   ("height", .num 1), ("weight", .num 30), ("bmi", .num 99), ("verdict", .str "Normal")]

/-- A collection holding only the stale record. -/
def fileStale : Collection := [("P1", staleRec)]

/-- The PatientUpdate with no field set. -/
def emptyPatch : PatientUpdate := ⟨none, none, none, none, none, none⟩

/-- The PatientUpdate setting only weight. -/
def weightPatch (w : ℚ) : PatientUpdate := ⟨none, none, none, none, none, some w⟩

/-- The PatientUpdate setting only age, to 150. -/
def agePatch150 : PatientUpdate := ⟨none, none, some 150, none, none, none⟩

/-- Reading a dict after a write: the written key returns the new value,
every other key is unaffected. -/
theorem getVal_setVal (r : Record) (k : String) (v : JValue) (k2 : String) :
    getVal (setVal r k v) k2 = if k2 = k then some v else getVal r k2 := by
  induction r with
  | nil =>
    by_cases h : k2 = k
    · subst h
      simp [setVal, getVal]
    · simp [setVal, getVal, h, Ne.symm h]
  | cons hd tl ih =>
    obtain ⟨k1, v1⟩ := hd
    by_cases h1 : k1 = k
    · subst h1
      by_cases h2 : k2 = k1 <;> simp [setVal, getVal, h2, eq_comm]
    · by_cases h2 : k1 = k2
      · subst h2
        simp [setVal, getVal, h1, eq_comm, Ne.symm h1]
      · simp [setVal, getVal, h1, h2, ih]

/-- Reading a collection after a write: the written id returns the new
record, every other id is unaffected. -/
theorem getRec_setRec (f : Collection) (k : String) (v : Record) (k2 : String) :
    getRec (setRec f k v) k2 = if k2 = k then some v else getRec f k2 := by
  induction f with
  | nil =>
    by_cases h : k2 = k
    · subst h
      simp [setRec, getRec]
    · simp [setRec, getRec, h, Ne.symm h]
  | cons hd tl ih =>
    obtain ⟨k1, v1⟩ := hd
    by_cases h1 : k1 = k
    · subst h1
      by_cases h2 : k2 = k1 <;> simp [setRec, getRec, h2, eq_comm]
    · by_cases h2 : k1 = k2
      · subst h2
        simp [setRec, getRec, h1, eq_comm, Ne.symm h1]
      · simp [setRec, getRec, h1, h2, ih]

/-- Claim C1: for every patient with positive height and weight, the
derivation is the pure function bmi = round(weight / height ** 2, 2),
and the verdict is Underweight below 18.5, Normal on [18.5, 30) and
Obese at or above 30. -/
theorem C1_derivation (p : Patient) (hh : 0 < p.height) (hw : 0 < p.weight) :
    p.bmi = round2 (p.weight / p.height ^ 2)
    ∧ (p.bmi < 37/2 → p.verdict = "Underweight")
    ∧ (37/2 ≤ p.bmi → p.bmi < 30 → p.verdict = "Normal")
    ∧ (30 ≤ p.bmi → p.verdict = "Obese") := by
  refine ⟨rfl, ?_, ?_, ?_⟩
  · intro h
    simp only [Patient.verdict, if_pos h]
  · intro h1 h2
    simp only [Patient.verdict, if_neg (not_lt.mpr h1), if_pos h2]
  · intro h
    have h1 : ¬ p.bmi < 37/2 := not_lt.mpr (le_trans (by norm_num) h)
    have h2 : ¬ p.bmi < 30 := not_lt.mpr h
    simp only [Patient.verdict, if_neg h1, if_neg h2]

/-- Witness for C1 at the concrete patient patDemo (1.75 m, 57 kg). -/
theorem C1_derivation_witness :
    patDemo.bmi = round2 (patDemo.weight / patDemo.height ^ 2)
    ∧ (patDemo.bmi < 37/2 → patDemo.verdict = "Underweight")
    ∧ (37/2 ≤ patDemo.bmi → patDemo.bmi < 30 → patDemo.verdict = "Normal")
    ∧ (30 ≤ patDemo.bmi → patDemo.verdict = "Obese") :=
  C1_derivation patDemo (by decide) (by decide)

/-- Claim C2 is false on the code: the patient patBmi30 (1 m, 30 kg) has
bmi exactly 30 and receives the verdict Obese, not Normal, because the
source tests bmi < 30 for Normal and falls through to Obese. -/
theorem C2_counterexample :
    patBmi30.bmi = 30 ∧ patBmi30.verdict = "Obese" ∧ ¬ patBmi30.verdict = "Normal" := by
  decide

/-- Claim C2 amended: a record whose derived bmi is exactly 18.5 receives
the verdict Normal, but a record whose derived bmi is exactly 30
receives the verdict Obese. -/
theorem C2_boundary (p : Patient) :
    (p.bmi = 37/2 → p.verdict = "Normal") ∧ (p.bmi = 30 → p.verdict = "Obese") := by
  constructor
  · intro h
    simp only [Patient.verdict, h]
    norm_num
  · intro h
    simp only [Patient.verdict, h]
    norm_num

/-- Witness for the amended C2 at patients with bmi exactly 18.5 and
exactly 30. -/
theorem C2_boundary_witness :
    patBmi185.verdict = "Normal" ∧ patBmi30.verdict = "Obese" :=
  ⟨(C2_boundary patBmi185).1 (by decide), (C2_boundary patBmi30).2 (by decide)⟩

/-- Claim C5: create with an id already present in the collection fails
with the Conflict error (400, Patient already exists) and the persisted
collection is returned unchanged: no save occurs. -/
theorem C5_create_conflict (file : Collection) (p : Patient) (r : Record)
    (h : getRec file p.id = some r) :
    create_patient file p = (.error ⟨400, "Patient already exists"⟩, file) := by
  unfold create_patient
  rw [h]
  rfl

/-- Witness for C5: re-creating patBmi30 in the collection that already
holds it fails with Conflict and leaves the collection unchanged. -/
theorem C5_create_conflict_witness :
    create_patient fileOne patBmi30 = (.error ⟨400, "Patient already exists"⟩, fileOne) :=
  C5_create_conflict fileOne patBmi30 patBmi30.dump (by decide)

/-- Claim C8 is false on the code: the Patient model has no length or
non-emptiness constraint on name, so a candidate with an empty name and
a candidate with a 51-character name both validate, and create persists
the empty-named record instead of rejecting it. -/
theorem C8_counterexample :
    patEmptyName.name.length = 0 ∧ patEmptyName.validB = true
    ∧ patLongName.name.length = 51 ∧ patLongName.validB = true
    ∧ (create_patient [] patEmptyName).1 = .ok "Patient created successfully"
    ∧ getRec (create_patient [] patEmptyName).2 "P9" = some patEmptyName.dump := by
  decide

/-- Claim C8 amended: validation imposes no constraint at all on name;
replacing the name of any candidate by any string, of any length, leaves
the validation outcome unchanged. -/
theorem C8_name_unconstrained (p : Patient) (s : String) :
    Patient.validB ⟨p.id, s, p.city, p.age, p.gender, p.height, p.weight⟩ = p.validB := rfl

/-- Claim C9 is false on the code: PatientUpdate constrains age only by
gt=0, without the lt=120 bound of the Patient model, so the patch
setting age to 150 validates even though a record with age 150 does
not. -/
theorem C9_counterexample :
    agePatch150.validB = true ∧ agePatch150.age = some 150
    ∧ ¬ (150 : ℤ) < 120
    ∧ Patient.validB ⟨"P1", "Arya", "Pune", 150, "male", 1, 30⟩ = false := by
  decide

/-- Claim C9 amended: every field present in a valid PatientUpdate obeys
the corresponding PatientRecord constraint except age, which is only
required to be positive (the upper bound 120 is not enforced); and the
serialised patch never carries an id key. -/
theorem C9_update_fields (u : PatientUpdate) (hv : u.validB = true) :
    (∀ a, u.age = some a → 0 < a)
    ∧ (∀ g, u.gender = some g → genders.contains g = true)
    ∧ (∀ x, u.height = some x → 0 < x)
    ∧ (∀ x, u.weight = some x → 0 < x)
    ∧ (u.dumpSet.map Prod.fst).contains "id" = false := by
  rw [PatientUpdate.validB, Bool.and_eq_true, Bool.and_eq_true, Bool.and_eq_true] at hv
  obtain ⟨⟨⟨hage, hgen⟩, hhei⟩, hwei⟩ := hv
  refine ⟨?_, ?_, ?_, ?_, ?_⟩
  · intro a ha
    rw [ha] at hage
    exact of_decide_eq_true hage
  · intro g hg
    rw [hg] at hgen
    exact hgen
  · intro x hx
    rw [hx] at hhei
    exact of_decide_eq_true hhei
  · intro x hx
    rw [hx] at hwei
    exact of_decide_eq_true hwei
  · obtain ⟨n1, c1, a1, g1, h1, w1⟩ := u
    rcases n1 <;> rcases c1 <;> rcases a1 <;> rcases g1 <;> rcases h1 <;> rcases w1 <;>
      simp [PatientUpdate.dumpSet]

/-- Witness for the amended C9 at the concrete patch agePatch150. -/
theorem C9_update_fields_witness :
    (∀ a, agePatch150.age = some a → 0 < a)
    ∧ (∀ g, agePatch150.gender = some g → genders.contains g = true)
    ∧ (∀ x, agePatch150.height = some x → 0 < x)
    ∧ (∀ x, agePatch150.weight = some x → 0 < x)
    ∧ (agePatch150.dumpSet.map Prod.fst).contains "id" = false :=
  C9_update_fields agePatch150 (by decide)

/-- Claim C3 is false on the code: after a concrete create, the
persisted object carries the keys bmi and verdict in addition to the six
raw fields, because model_dump serialises computed fields. -/
theorem C3_counterexample :
    getRec fileOne "P1" = some patBmi30.dump
    ∧ patBmi30.dump.map Prod.fst
        = ["name", "city", "age", "gender", "height", "weight", "bmi", "verdict"]
    ∧ "bmi" ∈ patBmi30.dump.map Prod.fst ∧ "verdict" ∈ patBmi30.dump.map Prod.fst := by
  decide

/-- Claim C3 amended: every record written by create or update is the
model dump of a Patient, whose keys are exactly name, city, age, gender,
height, weight, bmi, verdict: the two derived fields are persisted too,
recomputed at each write (not on load). -/
theorem C3_persisted_shape (file : Collection) (p pobj : Patient) (pid : String)
    (u : PatientUpdate)
    (hc : getRec file p.id = none)
    (hu : updateParsed file pid u = some pobj) :
    getRec (create_patient file p).2 p.id = some p.dump
    ∧ getRec (update_patient file pid u).2 pid = some pobj.dump
    ∧ (∀ q : Patient, q.dump.map Prod.fst
        = ["name", "city", "age", "gender", "height", "weight", "bmi", "verdict"]) := by
  refine ⟨?_, ?_, fun q => rfl⟩
  · unfold create_patient
    rw [hc]
    simp [getRec_setRec]
  · unfold updateParsed at hu
    unfold update_patient view_patient
    cases hrec : getRec file pid with
    | none =>
      rw [hrec] at hu
      exact absurd hu (by simp)
    | some ex =>
      rw [hrec] at hu
      have hu2 : parsePatient (setVal (applyUpdates ex u) "id" (JValue.str pid))
          = some pobj := hu
      simp [hu2, getRec_setRec]

/-- Witness for the amended C3: a concrete create and a concrete update,
each leaving a full eight-key dump in the store. -/
theorem C3_persisted_shape_witness :
    getRec (create_patient fileOne patDemo).2 patDemo.id = some patDemo.dump
    ∧ getRec (update_patient fileOne "P1" emptyPatch).2 "P1" = some patBmi30.dump
    ∧ (∀ q : Patient, q.dump.map Prod.fst
        = ["name", "city", "age", "gender", "height", "weight", "bmi", "verdict"]) :=
  C3_persisted_shape fileOne patDemo patBmi30 "P1" emptyPatch (by decide) (by decide)

/-- Claim C4 is false on the code: get returns the stored object
verbatim and never recomputes the derived fields, so on a collection
whose stored bmi (99) is stale with respect to the stored height (1)
and weight (30), the returned bmi differs from
round(weight / height ** 2, 2) = 30. -/
theorem C4_counterexample :
    view_patient fileStale "P1" = .ok staleRec
    ∧ getVal staleRec "bmi" = some (.num 99)
    ∧ getVal staleRec "height" = some (.num 1)
    ∧ getVal staleRec "weight" = some (.num 30)
    ∧ round2 ((30 : ℚ) / 1 ^ 2) = 30
    ∧ ¬ (99 : ℚ) = 30 := by
  decide

/-- Claim C4 amended: get fails with NotFound (404) exactly when the id
is absent and otherwise returns the stored record as persisted, without
recomputing bmi or verdict; the derived fields are fresh only because
every record the app itself writes carries the bmi computed from its
stored height and weight at write time. -/
theorem C4_get (file : Collection) (pid : String) :
    (getRec file pid = none → view_patient file pid = .error ⟨404, "Patient not found"⟩)
    ∧ (∀ r, getRec file pid = some r → view_patient file pid = .ok r)
    ∧ (∀ p : Patient, getVal p.dump "bmi" = some (.num (round2 (p.weight / p.height ^ 2)))) := by
  refine ⟨?_, ?_, fun p => rfl⟩
  · intro h
    unfold view_patient
    rw [h]
  · intro r h
    unfold view_patient
    rw [h]

/-- Witness for the amended C4: a missing id yields 404 and a present id
yields the stored record unchanged. -/
theorem C4_get_witness :
    view_patient fileStale "P2" = .error ⟨404, "Patient not found"⟩
    ∧ view_patient fileStale "P1" = .ok staleRec :=
  ⟨(C4_get fileStale "P2").1 (by decide), (C4_get fileStale "P1").2.1 staleRec (by decide)⟩

/-- Merging the weight-only patch into a canonically shaped stored
object replaces exactly the weight entry, in place. -/
theorem applyUpdates_weightPatch (n c : String) (a : ℤ) (g : String) (h w0 w1 : ℚ)
    (b v : JValue) :
    applyUpdates (storedShape n c a g h w0 b v) (weightPatch w1)
      = storedShape n c a g h w1 b v := by
  simp [applyUpdates, weightPatch, PatientUpdate.dumpSet, storedShape, setVal]

/-- Merging the empty patch changes nothing: no field is set, so the
for loop body never runs. -/
theorem applyUpdates_emptyPatch (r : Record) :
    applyUpdates r emptyPatch = r := rfl

/-- Rebuilding a Patient from a canonically shaped stored object with
the id set: the stored bmi and verdict entries are ignored and the six
raw fields are read back, subject to the model constraints. -/
theorem parse_storedShape (i n c : String) (a : ℤ) (g : String) (h w : ℚ)
    (b v : JValue)
    (ha1 : 0 < a) (ha2 : a < 120) (hg : genders.contains g = true)
    (hh : 0 < h) (hw : 0 < w) :
    parsePatient (setVal (storedShape n c a g h w b v) "id" (.str i))
      = some ⟨i, n, c, a, g, h, w⟩ := by
  have hset : setVal (storedShape n c a g h w b v) "id" (JValue.str i)
      = storedShape n c a g h w b v ++ [("id", JValue.str i)] := by
    simp [storedShape, setVal]
  have hg2 : g ∈ genders := by
    simpa using hg
  rw [hset]
  simp [parsePatient, storedShape, getVal, asStr, asInt, asRat, Patient.validB,
        ha1, ha2, hg2, hh, hw]

/-- The success path of the update endpoint, once the lookup and the
rebuild are known to succeed. -/
theorem update_patient_ok (file : Collection) (pid : String) (u : PatientUpdate)
    (ex : Record) (pobj : Patient)
    (hex : getRec file pid = some ex)
    (hp : parsePatient (setVal (applyUpdates ex u) "id" (.str pid)) = some pobj) :
    update_patient file pid u
      = (.ok "Patient updated successfully", setRec file pid pobj.dump) := by
  unfold update_patient view_patient
  rw [hex]
  simp [hp]

/-- A dict key untouched by the merge loop keeps its value. -/
theorem getVal_foldl_setVal (l : Record) (r : Record) (k : String)
    (hk : ∀ kv ∈ l, ¬ kv.1 = k) :
    getVal (l.foldl (fun acc kv => setVal acc kv.1 kv.2) r) k = getVal r k := by
  induction l generalizing r with
  | nil => rfl
  | cons kv t ih =>
    rw [List.foldl_cons]
    rw [ih _ (fun x hx => hk x (List.mem_cons_of_mem kv hx))]
    rw [getVal_setVal]
    rw [if_neg (fun hkk => hk kv (List.mem_cons_self kv t) hkk.symm)]

/-- A field absent from the patch retains its stored value after the
merge. -/
theorem getVal_applyUpdates_frame (r : Record) (u : PatientUpdate) (k : String)
    (hk : (u.dumpSet.map Prod.fst).contains k = false) :
    getVal (applyUpdates r u) k = getVal r k := by
  apply getVal_foldl_setVal
  intro kv hkv hkk
  have hmem : k ∈ u.dumpSet.map Prod.fst := by
    rw [← hkk]
    exact List.mem_map_of_mem Prod.fst hkv
  have hc : (u.dumpSet.map Prod.fst).contains k = true :=
    List.elem_eq_true_of_mem hmem
  rw [hk] at hc
  cases hc

/-- Claim C6: updating an existing canonically stored record with a
patch containing only weight succeeds, leaves name, city, age, gender
and height unchanged, sets weight to the patch value, and recomputes
bmi and verdict from the new weight and the unchanged height; and, in
general, every field absent from a patch retains its stored value in
the merge. -/
theorem C6_weight_only_update (file : Collection) (pid n c : String) (a : ℤ)
    (g : String) (h w0 : ℚ) (b v : JValue) (w1 : ℚ)
    (hrec : getRec file pid = some (storedShape n c a g h w0 b v))
    (ha1 : 0 < a) (ha2 : a < 120) (hg : genders.contains g = true)
    (hh : 0 < h) (hw : 0 < w1) :
    update_patient file pid (weightPatch w1)
      = (.ok "Patient updated successfully",
          setRec file pid (Patient.dump ⟨pid, n, c, a, g, h, w1⟩))
    ∧ getVal (Patient.dump ⟨pid, n, c, a, g, h, w1⟩) "name" = some (.str n)
    ∧ getVal (Patient.dump ⟨pid, n, c, a, g, h, w1⟩) "city" = some (.str c)
    ∧ getVal (Patient.dump ⟨pid, n, c, a, g, h, w1⟩) "age" = some (.num (a : ℚ))
    ∧ getVal (Patient.dump ⟨pid, n, c, a, g, h, w1⟩) "gender" = some (.str g)
    ∧ getVal (Patient.dump ⟨pid, n, c, a, g, h, w1⟩) "height" = some (.num h)
    ∧ getVal (Patient.dump ⟨pid, n, c, a, g, h, w1⟩) "weight" = some (.num w1)
    ∧ getVal (Patient.dump ⟨pid, n, c, a, g, h, w1⟩) "bmi"
        = some (.num (round2 (w1 / h ^ 2)))
    ∧ getVal (Patient.dump ⟨pid, n, c, a, g, h, w1⟩) "verdict"
        = some (.str (Patient.verdict ⟨pid, n, c, a, g, h, w1⟩))
    ∧ (∀ (r : Record) (uu : PatientUpdate) (k : String),
        (uu.dumpSet.map Prod.fst).contains k = false →
        getVal (applyUpdates r uu) k = getVal r k) := by
  refine ⟨?_, rfl, rfl, rfl, rfl, rfl, rfl, rfl, rfl, getVal_applyUpdates_frame⟩
  exact update_patient_ok file pid (weightPatch w1) _ _ hrec
    (by
      rw [applyUpdates_weightPatch]
      exact parse_storedShape pid n c a g h w1 b v ha1 ha2 hg hh hw)

/-- Witness for C6: setting only the weight of the stored patient of
fileStale to 40 keeps the other raw fields and recomputes bmi 40 and the
verdict Obese. -/
theorem C6_weight_only_update_witness :
    update_patient fileStale "P1" (weightPatch 40)
      = (.ok "Patient updated successfully",
          setRec fileStale "P1" (Patient.dump ⟨"P1", "Zed", "Pune", 30, "male", 1, 40⟩))
    ∧ getVal (Patient.dump ⟨"P1", "Zed", "Pune", 30, "male", 1, 40⟩) "name"
        = some (.str "Zed")
    ∧ getVal (Patient.dump ⟨"P1", "Zed", "Pune", 30, "male", 1, 40⟩) "city"
        = some (.str "Pune")
    ∧ getVal (Patient.dump ⟨"P1", "Zed", "Pune", 30, "male", 1, 40⟩) "age"
        = some (.num ((30 : ℤ) : ℚ))
    ∧ getVal (Patient.dump ⟨"P1", "Zed", "Pune", 30, "male", 1, 40⟩) "gender"
        = some (.str "male")
    ∧ getVal (Patient.dump ⟨"P1", "Zed", "Pune", 30, "male", 1, 40⟩) "height"
        = some (.num 1)
    ∧ getVal (Patient.dump ⟨"P1", "Zed", "Pune", 30, "male", 1, 40⟩) "weight"
        = some (.num 40)
    ∧ getVal (Patient.dump ⟨"P1", "Zed", "Pune", 30, "male", 1, 40⟩) "bmi"
        = some (.num (round2 ((40 : ℚ) / 1 ^ 2)))
    ∧ getVal (Patient.dump ⟨"P1", "Zed", "Pune", 30, "male", 1, 40⟩) "verdict"
        = some (.str (Patient.verdict ⟨"P1", "Zed", "Pune", 30, "male", 1, 40⟩))
    ∧ (∀ (r : Record) (uu : PatientUpdate) (k : String),
        (uu.dumpSet.map Prod.fst).contains k = false →
        getVal (applyUpdates r uu) k = getVal r k) :=
  C6_weight_only_update fileStale "P1" "Zed" "Pune" 30 "male" 1 30 (.num 99)
    (.str "Normal") 40 (by decide) (by decide) (by decide) (by decide) (by decide)
    (by decide)

/-- Claim C10: updating an existing, constraint-satisfying stored record
with the empty patch succeeds and is an identity on the six raw fields
(the entry is rewritten as a fresh dump with bmi and verdict recomputed,
but name, city, age, gender, height and weight keep their values), and
every other id of the collection is untouched. -/
theorem C10_empty_patch_identity (file : Collection) (pid n c : String) (a : ℤ)
    (g : String) (h w : ℚ) (b v : JValue)
    (hrec : getRec file pid = some (storedShape n c a g h w b v))
    (ha1 : 0 < a) (ha2 : a < 120) (hg : genders.contains g = true)
    (hh : 0 < h) (hw : 0 < w) :
    update_patient file pid emptyPatch
      = (.ok "Patient updated successfully",
          setRec file pid (Patient.dump ⟨pid, n, c, a, g, h, w⟩))
    ∧ (∀ k, k ∈ ["name", "city", "age", "gender", "height", "weight"] →
        getVal (Patient.dump ⟨pid, n, c, a, g, h, w⟩) k
          = getVal (storedShape n c a g h w b v) k)
    ∧ (∀ q, ¬ q = pid →
        getRec (setRec file pid (Patient.dump ⟨pid, n, c, a, g, h, w⟩)) q
          = getRec file q) := by
  refine ⟨?_, ?_, ?_⟩
  · exact update_patient_ok file pid emptyPatch _ _ hrec
      (by
        rw [applyUpdates_emptyPatch]
        exact parse_storedShape pid n c a g h w b v ha1 ha2 hg hh hw)
  · intro k hk
    fin_cases hk <;> rfl
  · intro q hq
    rw [getRec_setRec, if_neg hq]

/-- Witness for C10: the empty patch on the stored patient of fileStale
succeeds and keeps all six raw fields. -/
theorem C10_empty_patch_identity_witness :
    update_patient fileStale "P1" emptyPatch
      = (.ok "Patient updated successfully",
          setRec fileStale "P1" (Patient.dump ⟨"P1", "Zed", "Pune", 30, "male", 1, 30⟩))
    ∧ (∀ k, k ∈ ["name", "city", "age", "gender", "height", "weight"] →
        getVal (Patient.dump ⟨"P1", "Zed", "Pune", 30, "male", 1, 30⟩) k
          = getVal (storedShape "Zed" "Pune" 30 "male" 1 30 (.num 99) (.str "Normal")) k)
    ∧ (∀ q, ¬ q = "P1" →
        getRec (setRec fileStale "P1" (Patient.dump ⟨"P1", "Zed", "Pune", 30, "male", 1, 30⟩)) q
          = getRec fileStale q) :=
  C10_empty_patch_identity fileStale "P1" "Zed" "Pune" 30 "male" 1 30 (.num 99)
    (.str "Normal") (by decide) (by decide) (by decide) (by decide) (by decide)
    (by decide)

/-- Insertion is a permutation of consing. -/
theorem insertSorted_perm (le : Record → Record → Bool) (a : Record) (l : List Record) :
    (insertSorted le a l).Perm (a :: l) := by
  induction l with
  | nil => exact List.Perm.refl _
  | cons b t ih =>
    rw [insertSorted]
    by_cases hab : le a b = true
    · rw [if_pos hab]
    · rw [if_neg hab]
      exact (ih.cons b).trans (List.Perm.swap a b t)

/-- The stable sort is a permutation of its input. -/
theorem stableSort_perm (le : Record → Record → Bool) (l : List Record) :
    (stableSort le l).Perm l := by
  induction l with
  | nil => exact List.Perm.refl _
  | cons a t ih =>
    exact (insertSorted_perm le a (stableSort le t)).trans (ih.cons a)

/-- Inserting into a sorted list keeps it sorted, for a total transitive
comparison. -/
theorem insertSorted_pairwise (le : Record → Record → Bool)
    (htot : ∀ x y, le x y = true ∨ le y x = true)
    (htr : ∀ x y z, le x y = true → le y z = true → le x z = true)
    (a : Record) (l : List Record)
    (hl : l.Pairwise (fun x y => le x y = true)) :
    (insertSorted le a l).Pairwise (fun x y => le x y = true) := by
  induction l with
  | nil => simp [insertSorted]
  | cons b t ih =>
    rw [List.pairwise_cons] at hl
    obtain ⟨hb, ht⟩ := hl
    rw [insertSorted]
    by_cases hab : le a b = true
    · rw [if_pos hab]
      refine List.Pairwise.cons ?_ (List.Pairwise.cons hb ht)
      intro x hx
      rcases List.mem_cons.mp hx with hxb | hxt
      · exact hxb ▸ hab
      · exact htr a b x hab (hb x hxt)
    · rw [if_neg hab]
      refine List.Pairwise.cons ?_ (ih ht)
      intro x hx
      have hx2 := (insertSorted_perm le a t).mem_iff.mp hx
      rcases List.mem_cons.mp hx2 with hxa | hxt
      · subst hxa
        rcases htot x b with h1 | h1
        · exact absurd h1 hab
        · exact h1
      · exact hb x hxt

/-- The stable sort is sorted, for a total transitive comparison. -/
theorem stableSort_pairwise (le : Record → Record → Bool)
    (htot : ∀ x y, le x y = true ∨ le y x = true)
    (htr : ∀ x y z, le x y = true → le y z = true → le x z = true)
    (l : List Record) :
    (stableSort le l).Pairwise (fun x y => le x y = true) := by
  induction l with
  | nil => exact List.Pairwise.nil
  | cons a t ih => exact insertSorted_pairwise le htot htr a _ ih

/-- Inserting an element only adds it to the filtered key class it
belongs to, at the front, when incomparability implies distinct keys. -/
theorem insertSorted_filter (le : Record → Record → Bool) (keyf : Record → ℚ)
    (hne : ∀ x y, le x y = false → ¬ keyf x = keyf y)
    (a : Record) (l : List Record) (q : ℚ) :
    (insertSorted le a l).filter (fun r => decide (keyf r = q))
      = if keyf a = q
        then a :: l.filter (fun r => decide (keyf r = q))
        else l.filter (fun r => decide (keyf r = q)) := by
  induction l with
  | nil =>
    by_cases hq : keyf a = q <;> simp [insertSorted, List.filter, hq]
  | cons b t ih =>
    rw [insertSorted]
    by_cases hab : le a b = true
    · rw [if_pos hab]
      by_cases hq : keyf a = q <;> simp [List.filter_cons, hq]
    · rw [if_neg hab]
      have hab2 : le a b = false := by
        simpa using hab
      by_cases hq : keyf a = q
      · have hbq : ¬ keyf b = q := fun hh => hne a b hab2 (hq.trans hh.symm)
        simp [List.filter_cons, hq, hbq, ih]
      · by_cases hbq : keyf b = q <;> simp [List.filter_cons, hq, hbq, ih]

/-- Stability: sorting does not reorder records with equal keys, so for
each key value the filtered subsequence equals that of the input. -/
theorem stableSort_filter (le : Record → Record → Bool) (keyf : Record → ℚ)
    (hne : ∀ x y, le x y = false → ¬ keyf x = keyf y)
    (l : List Record) (q : ℚ) :
    (stableSort le l).filter (fun r => decide (keyf r = q))
      = l.filter (fun r => decide (keyf r = q)) := by
  induction l with
  | nil => rfl
  | cons a t ih =>
    rw [stableSort, insertSorted_filter le keyf hne, ih]
    by_cases hq : keyf a = q <;> simp [List.filter_cons, hq]

/-- The endpoint comparison is total. -/
theorem sortLe_total (field : String) (d : Bool) (x y : Record) :
    sortLe field d x y = true ∨ sortLe field d y x = true := by
  cases d <;> simp [sortLe] <;> exact le_total _ _

/-- The endpoint comparison is transitive. -/
theorem sortLe_trans (field : String) (d : Bool) (x y z : Record)
    (h1 : sortLe field d x y = true) (h2 : sortLe field d y z = true) :
    sortLe field d x z = true := by
  cases d
  · simp [sortLe] at h1 h2 ⊢
    exact le_trans h1 h2
  · simp [sortLe] at h1 h2 ⊢
    exact le_trans h2 h1

/-- Incomparable records have strictly distinct keys. -/
theorem sortLe_ne (field : String) (d : Bool) (x y : Record)
    (h : sortLe field d x y = false) :
    ¬ (sortKey field x).getD 0 = (sortKey field y).getD 0 := by
  cases d
  · have hlt : ¬ ((sortKey field x).getD 0 ≤ (sortKey field y).getD 0) := by
      simpa [sortLe] using h
    intro hh
    exact hlt (le_of_eq hh)
  · have hlt : ¬ ((sortKey field y).getD 0 ≤ (sortKey field x).getD 0) := by
      simpa [sortLe] using h
    intro hh
    exact hlt (le_of_eq hh.symm)

/-- Claim C7: sortBy fails with InvalidArgument (400) whenever the field
is not height, weight or bmi, or the order is not asc or desc;
otherwise, on a collection whose present sort-field values are numeric,
it returns all stored records reordered: a permutation of the values of
the collection, sorted by the field (a record missing the field counts
as 0), ascending for asc and descending for desc, and stable: for every
key value, the records of that key keep the original iteration order of
the collection. -/
theorem C7_sort_endpoint (file : Collection) (fb ord : String) :
    (validFields.contains fb = false →
      sort_patients file fb ord
        = .error ⟨400, "Invalid field. Choose from height, weight, bmi"⟩)
    ∧ (validFields.contains fb = true → ¬ (ord = "asc" ∨ ord = "desc") →
      sort_patients file fb ord = .error ⟨400, "Sort order must be asc or desc"⟩)
    ∧ (validFields.contains fb = true → (ord = "asc" ∨ ord = "desc") →
       (file.map Prod.snd).all (fun r => (sortKey fb r).isSome) = true →
      sort_patients file fb ord
          = .ok (stableSort (sortLe fb (ord = "desc")) (file.map Prod.snd))
      ∧ (stableSort (sortLe fb (ord = "desc")) (file.map Prod.snd)).Perm
          (file.map Prod.snd)
      ∧ (stableSort (sortLe fb (ord = "desc")) (file.map Prod.snd)).Pairwise
          (fun x y => sortLe fb (ord = "desc") x y = true)
      ∧ (∀ q : ℚ,
          (stableSort (sortLe fb (ord = "desc")) (file.map Prod.snd)).filter
              (fun r => decide ((sortKey fb r).getD 0 = q))
            = (file.map Prod.snd).filter
              (fun r => decide ((sortKey fb r).getD 0 = q)))) := by
  refine ⟨?_, ?_, ?_⟩
  · intro hf
    have hf2 : ¬ fb ∈ validFields := by
      simpa using hf
    unfold sort_patients
    simp [hf2]
  · intro hf hord
    have hf2 : fb ∈ validFields := by
      simpa using hf
    unfold sort_patients
    simp [hf2, hord]
  · intro hf hord hall
    have hf2 : fb ∈ validFields := by
      simpa using hf
    refine ⟨?_, stableSort_perm _ _,
        stableSort_pairwise _ (sortLe_total fb _) (sortLe_trans fb _) _,
        fun q => stableSort_filter _ _ (sortLe_ne fb _) _ q⟩
    unfold sort_patients
    simp [hf2, hord, hall]

/-- A stored record with bmi 22.1. -/
def recB1 : Record := [("name", .str "A"), ("bmi", .num (221/10))]

/-- A stored record with bmi 30.5. -/
def recB2 : Record := [("name", .str "B"), ("bmi", .num (305/10))]

/-- A stored record with bmi 18. -/
def recB3 : Record := [("name", .str "C"), ("bmi", .num 18)]

/-- A collection of the three bmi example records. -/
def fileSort : Collection := [("P1", recB1), ("P2", recB2), ("P3", recB3)]

/-- Witness for C7: sorting the three-record collection by bmi
descending succeeds with a sorted, stable permutation of its values. -/
theorem C7_sort_endpoint_witness :
    sort_patients fileSort "bmi" "desc"
        = .ok (stableSort (sortLe "bmi" ("desc" = "desc")) (fileSort.map Prod.snd))
    ∧ (stableSort (sortLe "bmi" ("desc" = "desc")) (fileSort.map Prod.snd)).Perm
        (fileSort.map Prod.snd)
    ∧ (stableSort (sortLe "bmi" ("desc" = "desc")) (fileSort.map Prod.snd)).Pairwise
        (fun x y => sortLe "bmi" ("desc" = "desc") x y = true)
    ∧ (∀ q : ℚ,
        (stableSort (sortLe "bmi" ("desc" = "desc")) (fileSort.map Prod.snd)).filter
            (fun r => decide ((sortKey "bmi" r).getD 0 = q))
          = (fileSort.map Prod.snd).filter
            (fun r => decide ((sortKey "bmi" r).getD 0 = q))) :=
  (C7_sort_endpoint fileSort "bmi" "desc").2.2 (by decide) (by decide) (by decide)

end PatientAPI
